import Mathlib

/-!
Verification of the monthly retraining pipeline in `hw3/homework.py`.

The development is a shallow embedding of the script:
* timestamps are rationals (seconds since an arbitrary epoch), so a pandas
  timedelta is a rational number of seconds;
* a pandas cell of a categorical column is a `CatValue` (missing, integer,
  float, or string — the dtypes this script actually moves through);
* a dataframe is a `List Row`; pandas column assignment on the caller's
  frame is made explicit by returning the post-call state of that frame;
* fallible stages return `Except`, and the driver `main` is state passing
  over an environment of parquet files, producing an event trace, a log,
  the written artifact files and an outcome.
-/

/-- The names of the two categorical columns of the trip table (`homework.py` line 94). -/
inductive ColName where
  | PUlocationID
  | DOlocationID
deriving DecidableEq, Repr

/-- A cell of a categorical column: missing (`NaN`), integer, float, or
string — the dtypes that `fillna(-1).astype("int").astype("str")` on
line 50 can encounter or produce. Floats are modelled as exact rationals. -/
inductive CatValue where
  | na
  | intV (n : Int)
  | floatV (q : ℚ)
  | strV (s : String)
deriving DecidableEq, Repr

/-- One row of the trip record table. `pickup_datetime` and
`dropOff_datetime` are timestamps in seconds; `duration` is the derived
column (absent on a freshly loaded table, in minutes once assigned). -/
structure Row where
  pickup_datetime : ℚ
  dropOff_datetime : ℚ
  PUlocationID : CatValue
  DOlocationID : CatValue
  duration : Option ℚ
deriving DecidableEq, Repr

/-- Column projection for the two categorical fields. -/
def getField (r : Row) : ColName → CatValue
  | .PUlocationID => r.PUlocationID
  | .DOlocationID => r.DOlocationID

/-- Truncation of a rational toward zero: the semantics of numpy's
float-to-int cast used by `astype("int")` (C-style truncation). -/
def truncOfRat (q : ℚ) : Int :=
  if 0 ≤ q.num then ((q.num.toNat / q.den : Nat) : Int)
  else -(((-q.num).toNat / q.den : Nat) : Int)

/-- Rational subtraction, written through `mkRat` so that it evaluates by
kernel reduction (`Rat.sub` is `@[irreducible]`). `qSub_eq` below proves it
equal to `a - b`; statements use the standard operations. -/
def qSub (a b : ℚ) : ℚ :=
  mkRat (a.num * (b.den : Int) - b.num * (a.den : Int)) (a.den * b.den)

/-- Division of a rational by a natural number, through `mkRat` for the
same reason as `qSub`; `qDivNat_eq` proves it equal to `a / n`. -/
def qDivNat (a : ℚ) (n : Nat) : ℚ := mkRat a.num (a.den * n)

/-- Model of `Series.fillna(-1)`: missing cells become the integer `-1`, everything
else is untouched (line 50). -/
def fillnaNeg1 : CatValue → CatValue
  | .na => .intV (-1)
  | v => v

/-- Model of `astype("int")` on a cell: integers unchanged, floats truncated toward
zero, numeric strings parsed. A missing cell would make pandas raise
(`Cannot convert non-finite values`); it is unreachable here because
`fillna(-1)` runs first, and is left as `na`. -/
def astypeIntCell : CatValue → CatValue
  | .na => .na
  | .intV n => .intV n
  | .floatV q => .intV (truncOfRat q)
  | .strV s => .intV ((s.toInt?).getD 0)

/-- Model of `astype("str")` on a cell. Only the integer case is reachable in the
script (`astype("int")` runs first); pandas would render a float with a
decimal point and `NaN` as `"nan"`, approximated here. -/
def astypeStrCell : CatValue → CatValue
  | .na => .strV "nan"
  | .intV n => .strV (toString n)
  | .floatV q => .strV (toString (truncOfRat q) ++ ".0")
  | .strV s => .strV s

/-- The whole per-cell categorical normalization of line 50:
`fillna(-1).astype("int").astype("str")`. -/
def encodeCat (v : CatValue) : CatValue :=
  astypeStrCell (astypeIntCell (fillnaNeg1 v))

/-- Model of `df[categorical] = df[categorical].fillna(-1).astype("int").astype("str")`
applied to one row: each column named in `categorical` is normalized,
other columns are untouched. -/
def encodeRow (categorical : List ColName) (r : Row) : Row :=
  { r with
    PUlocationID :=
      if ColName.PUlocationID ∈ categorical then encodeCat r.PUlocationID
      else r.PUlocationID
    DOlocationID :=
      if ColName.DOlocationID ∈ categorical then encodeCat r.DOlocationID
      else r.DOlocationID }

/-- Line 40: `df["duration"] = df.dropOff_datetime - df.pickup_datetime`
(a timedelta, in seconds here). -/
def assignDurationTd (r : Row) : Row :=
  { r with duration := some (qSub r.dropOff_datetime r.pickup_datetime) }

/-- Line 41: `df["duration"] = df.duration.dt.total_seconds() / 60`. -/
def durationToMinutes (r : Row) : Row :=
  { r with duration := r.duration.map (qDivNat · 60) }

/-- Net effect of lines 40-41 on one row: the `duration` column holds the
trip duration in minutes. -/
def setDuration (r : Row) : Row :=
  durationToMinutes (assignDurationTd r)

/-- Line 42 predicate: `(df.duration >= 1) & (df.duration <= 60)`. A
missing duration compares false, as in pandas. -/
def durFilter (r : Row) : Bool :=
  match r.duration with
  | some d => decide (1 ≤ d) && decide (d ≤ 60)
  | none => false

/-- Structured log records emitted through `get_run_logger()`. For the two
RMSE lines the payload carried here is the mean squared error (the
radicand): `ℚ` has no square root, and no property below inspects the
numeric value — only which records are emitted. -/
inductive LogMsg where
  | meanDuration (isTrain : Bool) (q : ℚ)
  | xShape (rows cols : Nat)
  | featCount (n : Nat)
  | trainMse (q : ℚ)
  | valMse (q : ℚ)
deriving DecidableEq, Repr

/-- Mean of a list of rationals. Pandas returns `NaN` on an empty column;
the value is only ever logged, and is modelled as `0` in that case. -/
def listMean (l : List ℚ) : ℚ :=
  if l.length = 0 then 0 else l.sum / l.length

/-- Result of `prepare_features` (lines 38-51). `callerDf` is the state of
the dataframe object the caller passed in after the call returns: the
column assignments of lines 40-41 happen on that object before the
`.copy()` on line 42, so they are visible to the caller. `table` is the
returned prepared table, `log` the emitted log records. -/
structure PrepOut where
  callerDf : List Row
  table : List Row
  log : List LogMsg
deriving Repr

/-- Model of `prepare_features(df, categorical, train)`, lines 38-51. -/
def prepare_features (df : List Row) (categorical : List ColName)
    (train : Bool) : PrepOut :=
  let df1 := df.map setDuration
  let df2 := df1.filter durFilter
  let mean_duration := listMean (df2.filterMap (·.duration))
  let df3 := df2.map (encodeRow categorical)
  { callerDf := df1
    table := df3
    log := [LogMsg.meanDuration train mean_duration] }

/-- A parsed calendar date, as produced by
`datetime.datetime.strptime(date, "%Y-%m-%d").date()`. -/
structure PyDate where
  year : Nat
  month : Nat
  day : Nat
deriving DecidableEq, Repr

/-- Split a character list at every `'-'` (the literal separators of the
`"%Y-%m-%d"` format). Always returns at least one group. -/
def splitDashAux : List Char → List (List Char)
  | [] => [[]]
  | c :: cs =>
    match splitDashAux cs with
    | [] => [[]]
    | g :: gs => if c = '-' then [] :: g :: gs else (c :: g) :: gs

/-- Decimal digit string to a natural number. -/
def natOfDigits (l : List Char) : Nat :=
  l.foldl (fun n c => n * 10 + (c.toNat - 48)) 0

/-- Gregorian leap year, as in Python's `calendar`/`datetime`. -/
def isLeap (y : Nat) : Bool :=
  y % 4 = 0 && (y % 100 ≠ 0 || y % 400 = 0)

/-- Days in a month, as validated by `datetime.date`. -/
def daysInMonth (y m : Nat) : Nat :=
  if m = 2 then (if isLeap y then 29 else 28)
  else if m = 4 ∨ m = 6 ∨ m = 9 ∨ m = 11 then 30
  else 31

/-- Model of `datetime.datetime.strptime(s, "%Y-%m-%d").date()` (line 20). CPython's
`_strptime` matches `%Y` against exactly four digits and `%m`/`%d` against
one or two digits with the full string consumed; `datetime.date` then
requires `1 <= year`, `1 <= month <= 12` and a day valid for the month.
Any failure raises `ValueError`, modelled as `none`. -/
def parseDate (s : String) : Option PyDate :=
  match splitDashAux s.data with
  | [ys, ms, ds] =>
    if ys.all Char.isDigit ∧ ys.length = 4 ∧
        ms.all Char.isDigit ∧ 1 ≤ ms.length ∧ ms.length ≤ 2 ∧
        ds.all Char.isDigit ∧ 1 ≤ ds.length ∧ ds.length ≤ 2 ∧
        1 ≤ natOfDigits ys ∧ 1 ≤ natOfDigits ms ∧ natOfDigits ms ≤ 12 ∧
        1 ≤ natOfDigits ds ∧
        natOfDigits ds ≤ daysInMonth (natOfDigits ys) (natOfDigits ms) then
      some ⟨natOfDigits ys, natOfDigits ms, natOfDigits ds⟩
    else none
  | _ => none

/-- The (year, month) part of `date_object + relativedelta(months=k)` for
`-12 < k < 12` (lines 22-23): dateutil adds `k` to the month and carries
at most one year in either direction. The day is clamped to the target
month but never affects the produced paths. -/
def relMonths (dt : PyDate) (k : Int) : Int × Int :=
  let m : Int := (dt.month : Int) + k
  if m > 12 then ((dt.year : Int) + 1, m - 12)
  else if m < 1 then ((dt.year : Int) - 1, m + 12)
  else ((dt.year : Int), m)

/-- Model of the format `month:02d`: two-digit zero-padded month (months are 1..12). -/
def twoDigit (m : Int) : String :=
  if m < 10 then "0" ++ toString m else toString m

/-- The dataset path format of lines 25-26:
`./data/fhv_tripdata_{year}-{month:02d}.parquet`. -/
def pathFor (ym : Int × Int) : String :=
  "./data/fhv_tripdata_" ++ toString ym.1 ++ "-" ++ twoDigit ym.2 ++ ".parquet"

/-- Failure modes of `get_paths`: a `ValueError` from `strptime` on a
malformed date string, or a `ValueError` from `date.replace` when the
shifted month falls before `datetime.MINYEAR = 1` (dateutil calls
`replace` with the carried year, e.g. reference `0001-01-15` asks for
year 0). -/
inductive GpErr where
  | parseErr
  | rangeErr
deriving DecidableEq, Repr

/-- Model of `get_paths(date)`, lines 17-28. -/
def get_paths (date : String) : Except GpErr (String × String) :=
  match parseDate date with
  | none => .error .parseErr
  | some dt =>
    let train_ym := relMonths dt (-2)
    let val_ym := relMonths dt (-1)
    if train_ym.1 < 1 then .error .rangeErr
    else if val_ym.1 < 1 then .error .rangeErr
    else .ok (pathFor train_ym, pathFor val_ym)

/-- A record produced by `df[categorical].to_dict(orient="records")`
(lines 58, 77): a mapping holding exactly the listed categorical columns
(`none` for a column absent from the record). -/
def rowRecord (categorical : List ColName) (r : Row) : ColName → Option CatValue :=
  fun f => if f ∈ categorical then some (getField r f) else none

/-- State of a `sklearn.feature_extraction.DictVectorizer`: the learned feature
names. Each feature is a (column, string value) pair — rendered by sklearn
as `"col=value"` — because this script always passes string-valued
records (line 50 stringifies the categorical columns before lines 58/77). -/
structure DictVec where
  feature_names : List (ColName × String)
deriving DecidableEq, Repr

/-- sklearn's displayed name for a one-hot feature. -/
def featureKey (p : ColName × String) : String :=
  (match p.1 with
   | .PUlocationID => "PUlocationID"
   | .DOlocationID => "DOlocationID") ++ "=" ++ p.2

/-- Value of one feature on one record: one-hot match of the record's
string value against the feature's (column, value) pair. A categorical
value unseen at fit time matches no feature, contributing all zeros. -/
def featureVal (rec : ColName → Option CatValue) (p : ColName × String) : ℚ :=
  match rec p.1 with
  | some (.strV s) => if s = p.2 then 1 else 0
  | _ => 0

/-- Model of `DictVectorizer.transform`: maps records to rows of the (dense view of
the) feature matrix over the already-learned feature names. It never
refits: the vectorizer state it yields is the one it was given. -/
def dvTransform (dv : DictVec) (recs : List (ColName → Option CatValue)) :
    DictVec × List (List ℚ) :=
  (dv, recs.map (fun rec => dv.feature_names.map (featureVal rec)))

/-- Model of `DictVectorizer.fit_transform`: learns the distinct (column, string
value) pairs present in the records, sorted by their rendered name as
sklearn does, then transforms. -/
def dvFitTransform (categorical : List ColName)
    (recs : List (ColName → Option CatValue)) : DictVec × List (List ℚ) :=
  let pairs := recs.foldr
    (fun rec acc =>
      (categorical.filterMap (fun f =>
        match rec f with
        | some (.strV s) => some (f, s)
        | _ => none)) ++ acc) []
  let dv : DictVec :=
    ⟨(pairs.dedup).mergeSort (fun p q => !decide (featureKey q < featureKey p))⟩
  dvTransform dv recs

/-- Parameters of a `sklearn.linear_model.LinearRegression`. -/
structure LinReg where
  coef : List ℚ
  intercept : ℚ
deriving DecidableEq, Repr

/-- Dot product of two equal-length dense vectors. -/
def dotQ (xs ys : List ℚ) : ℚ := (List.zipWith (· * ·) xs ys).sum

/-- Model of `LinearRegression.predict`. -/
def lrPredict (lr : LinReg) (x : List (List ℚ)) : List ℚ :=
  x.map (fun xrow => dotQ lr.coef xrow + lr.intercept)

/-- Modelled from the spec: the linear solver is an out-of-scope black-box
collaborator (spec sections 1 and 6), so the least-squares solution of
`LinearRegression.fit` is not reproduced. It is modelled as a computable
deterministic function of its inputs with coefficients of the right
length; no claim below depends on the fitted values. -/
def lrFit (x : List (List ℚ)) (y : List ℚ) : LinReg :=
  { coef := (x.head?.getD []).map (fun _ => (0 : ℚ))
    intercept := listMean y }

/-- Model of `mean_squared_error(y, y_pred)` without the final square root
(`squared=False` takes the root; `ℚ` has none, and only the presence of
the logged value matters to any property below). -/
def msq (y yPred : List ℚ) : ℚ :=
  listMean (List.zipWith (fun a b => (a - b) ^ 2) y yPred)

/-- Failure mode of `train_model`: `LinearRegression.fit` raises a `ValueError`
on an empty training table; this is the only failure mode of
`train_model` reachable in the embedding. -/
inductive TrainErr where
  | emptyFit
deriving DecidableEq, Repr

/-- Model of `train_model(df, categorical)`, lines 54-71. The log records for the
matrix shape and feature count are emitted (lines 63-64) before
`LinearRegression.fit` runs, so they are present even when the fit on an
empty table raises. -/
def train_model (df : List Row) (categorical : List ColName) :
    List LogMsg × Except TrainErr (LinReg × DictVec) :=
  let train_dicts := df.map (rowRecord categorical)
  let fitted := dvFitTransform categorical train_dicts
  let dv := fitted.1
  let x_train := fitted.2
  let y_train := df.map (fun r => r.duration.getD 0)
  let logs := [LogMsg.xShape x_train.length dv.feature_names.length,
               LogMsg.featCount dv.feature_names.length]
  if df.isEmpty then (logs, .error .emptyFit)
  else
    let lr := lrFit x_train y_train
    let y_pred := lrPredict lr x_train
    (logs ++ [LogMsg.trainMse (msq y_train y_pred)], .ok (lr, dv))

/-- Failure mode of `run_model`: `LinearRegression.predict` raises a
`ValueError` on an empty validation table; the only reachable failure of
`run_model`. -/
inductive EvalErr where
  | emptyEval
deriving DecidableEq, Repr

/-- The observable result of `run_model`: the vectorizer and model states
after the call, and the Python return value — the bare `return` on
line 84, i.e. `None`, modelled as `Unit`. -/
structure RunModelOut where
  dvAfter : DictVec
  lrAfter : LinReg
  ret : Unit
deriving DecidableEq, Repr

/-- Model of `run_model(df, categorical, dv, lr)`, lines 74-84. It calls
`dv.transform` (line 78), never `fit_transform`, and only reads `lr`. -/
def run_model (df : List Row) (categorical : List ColName)
    (dv : DictVec) (lr : LinReg) :
    List LogMsg × Except EvalErr RunModelOut :=
  let val_dicts := df.map (rowRecord categorical)
  let transformed := dvTransform dv val_dicts
  let x_val := transformed.2
  let y_pred := lrPredict lr x_val
  let y_val := df.map (fun r => r.duration.getD 0)
  if df.isEmpty then ([], .error .emptyEval)
  else ([LogMsg.valMse (msq y_val y_pred)], .ok ⟨transformed.1, lr, ()⟩)

/-- The fixed categorical column list of line 94. -/
def categorical : List ColName := [ColName.PUlocationID, ColName.DOlocationID]

/-- An environment of readable parquet files: path to table.
`read_data` (lines 31-34) succeeds exactly on the listed paths. -/
def Env := List (String × List Row)

/-- Model of `pd.read_parquet(path)`: the table at `path`, or a not-found/IO error
(`none`). -/
def readData (env : Env) (path : String) : Option (List Row) :=
  (env.find? (fun kv => kv.1 == path)).map (·.2)

/-- A completed pipeline stage, in the order the driver runs them. A stage
that raises does not appear. -/
inductive Ev where
  | resolve
  | readF (path : String)
  | prep (isTrain : Bool)
  | trainEv
  | writeF (path : String)
  | evalEv
deriving DecidableEq, Repr

/-- A serialized run artifact: `dump(lr, ...)` or `dump(dv, ...)`
(lines 105-106). -/
inductive Artifact where
  | modelA (lr : LinReg)
  | dvA (dv : DictVec)
deriving DecidableEq, Repr

/-- Why a run aborted. -/
inductive RunError where
  | pathErr (e : GpErr)
  | readErr (path : String)
  | trainErr
  | evalErr
deriving DecidableEq, Repr

/-- Everything observable about one run of the flow `main`: the completed
stages in order, the log, the artifact files written (path and content, in
write order), and the outcome. -/
structure RunResult where
  events : List Ev
  log : List LogMsg
  writes : List (String × Artifact)
  outcome : Except RunError Unit

/-- Model of `main(date)`, lines 87-108. `dateOpt` is the optional `date` argument;
`today` is `datetime.date.today().strftime("%Y-%m-%d")`, the wall-clock
default of lines 89-90, passed in explicitly. Stages run strictly in
sequence and the first exception aborts the run; note that the two
`dump` calls (lines 105-106) run before `run_model` (line 108).
(The source function is called `main`; Lean reserves that name for an
entry point, hence `mainFlow`.) -/
def mainFlow (env : Env) (dateOpt : Option String) (today : String) : RunResult :=
  let date := dateOpt.getD today
  match get_paths date with
  | .error e => ⟨[], [], [], .error (.pathErr e)⟩
  | .ok (train_path, val_path) =>
    match readData env train_path with
    | none => ⟨[.resolve], [], [], .error (.readErr train_path)⟩
    | some df_train =>
      let pT := prepare_features df_train categorical true
      match readData env val_path with
      | none =>
        ⟨[.resolve, .readF train_path, .prep true], pT.log, [],
         .error (.readErr val_path)⟩
      | some df_val =>
        let pV := prepare_features df_val categorical false
        match train_model pT.table categorical with
        | (tlog, .error _) =>
          ⟨[.resolve, .readF train_path, .prep true, .readF val_path,
            .prep false],
           pT.log ++ pV.log ++ tlog, [], .error .trainErr⟩
        | (tlog, .ok (lr, dv)) =>
          let model_path := "model-" ++ date ++ ".bin"
          let dv_path := "dv-" ++ date ++ ".b"
          match run_model pV.table categorical dv lr with
          | (rlog, .error _) =>
            ⟨[.resolve, .readF train_path, .prep true, .readF val_path,
              .prep false, .trainEv, .writeF model_path, .writeF dv_path],
             pT.log ++ pV.log ++ tlog ++ rlog,
             [(model_path, .modelA lr), (dv_path, .dvA dv)],
             .error .evalErr⟩
          | (rlog, .ok _) =>
            ⟨[.resolve, .readF train_path, .prep true, .readF val_path,
              .prep false, .trainEv, .writeF model_path, .writeF dv_path,
              .evalEv],
             pT.log ++ pV.log ++ tlog ++ rlog,
             [(model_path, .modelA lr), (dv_path, .dvA dv)],
             .ok ()⟩

/-- The full stage sequence of a successful run, in the order the code
executes it. -/
def stageSeq (train_path val_path model_path dv_path : String) : List Ev :=
  [.resolve, .readF train_path, .prep true, .readF val_path, .prep false,
   .trainEv, .writeF model_path, .writeF dv_path, .evalEv]

/-- Relation stating `ys` extends `xs`: a run got `xs` far through `ys`. -/
def initialSegment (xs ys : List Ev) : Prop := ∃ t, ys = xs ++ t

/-- A trip row of 30 minutes (1800 seconds) with integer location ids. -/
def rowGood : Row :=
  { pickup_datetime := 0, dropOff_datetime := 1800
    PUlocationID := .intV 5, DOlocationID := .intV 7, duration := none }

/-- A trip row of zero duration: dropped by the outlier filter. -/
def rowZero : Row :=
  { pickup_datetime := 0, dropOff_datetime := 0
    PUlocationID := .intV 5, DOlocationID := .intV 7, duration := none }

/-- A 20-minute trip row with a missing pickup location. -/
def rowNa : Row :=
  { pickup_datetime := 0, dropOff_datetime := 1200
    PUlocationID := .na, DOlocationID := .intV 3, duration := none }

/-- Environment for a fully successful run with reference date
`2022-03-15`: both months present and non-degenerate. -/
def envGood : Env :=
  [("./data/fhv_tripdata_2022-01.parquet", [rowGood]),
   ("./data/fhv_tripdata_2022-02.parquet", [rowGood])]

/-- Environment whose validation month contains only a zero-duration row:
the prepared validation table is empty, so the evaluation stage raises —
after both artifacts were already dumped. -/
def envEvalFails : Env :=
  [("./data/fhv_tripdata_2022-01.parquet", [rowGood]),
   ("./data/fhv_tripdata_2022-02.parquet", [rowZero])]

/-- A concrete already-fitted vectorizer for exercising `run_model`. -/
def dvW : DictVec :=
  ⟨[(ColName.PUlocationID, "5"), (ColName.DOlocationID, "7")]⟩

/-- A concrete fitted model for exercising `run_model`. -/
def lrW : LinReg := ⟨[0, 0], 0⟩

theorem ratNumCast (a : ℚ) : (a.num : ℚ) = a * (a.den : ℚ) := by
  have hd : ((a.den : ℚ)) ≠ 0 := by positivity
  have h := Rat.num_div_den a
  rw [div_eq_iff hd] at h
  exact h

theorem qSub_eq (a b : ℚ) : qSub a b = a - b := by
  unfold qSub
  rw [Rat.mkRat_eq_div]
  push_cast
  have ha : ((a.den : ℚ)) ≠ 0 := by positivity
  have hb : ((b.den : ℚ)) ≠ 0 := by positivity
  field_simp
  rw [ratNumCast a, ratNumCast b]
  ring

theorem qDivNat_eq (a : ℚ) (n : Nat) : qDivNat a n = a / n := by
  unfold qDivNat
  rw [Rat.mkRat_eq_div]
  push_cast
  rcases Nat.eq_zero_or_pos n with h | h
  · subst h; push_cast; simp
  · have ha : ((a.den : ℚ)) ≠ 0 := by positivity
    have hn : ((n : ℚ)) ≠ 0 := by positivity
    field_simp
    rw [ratNumCast a]
    ring

theorem setDuration_duration (r : Row) :
    (setDuration r).duration =
      some ((r.dropOff_datetime - r.pickup_datetime) / 60) := by
  simp [setDuration, assignDurationTd, durationToMinutes, qSub_eq, qDivNat_eq]

theorem encodeRow_duration (cat : List ColName) (r : Row) :
    (encodeRow cat r).duration = r.duration := rfl

theorem durFilter_eq_true {r : Row} :
    durFilter r = true ↔ ∃ d, r.duration = some d ∧ 1 ≤ d ∧ d ≤ 60 := by
  cases h : r.duration <;> simp [durFilter, h]

theorem mem_prep_table {df : List Row} {cat : List ColName} {t : Bool}
    {r' : Row} :
    r' ∈ (prepare_features df cat t).table ↔
      ∃ r, r ∈ df ∧ durFilter (setDuration r) = true ∧
        encodeRow cat (setDuration r) = r' := by
  simp only [prepare_features, List.mem_map, List.mem_filter]
  constructor
  · rintro ⟨a, ⟨⟨r, hr, rfl⟩, hf⟩, rfl⟩
    exact ⟨r, hr, hf, rfl⟩
  · rintro ⟨r, hr, hf, rfl⟩
    exact ⟨setDuration r, ⟨⟨r, hr, rfl⟩, hf⟩, rfl⟩

/-- C3: for every input trip table, `prepare_features` derives `duration`
as (drop-off minus pickup) in minutes, and its output contains exactly the
input rows whose duration lies in [1, 60]: every retained row satisfies
the bound, every in-range input row is retained (as its prepared form),
and every out-of-range input row is absent from the output. -/
theorem prepare_features_duration_filter (df : List Row)
    (cat : List ColName) (t : Bool) :
    (∀ r, (setDuration r).duration =
        some ((r.dropOff_datetime - r.pickup_datetime) / 60))
    ∧ (∀ r' ∈ (prepare_features df cat t).table,
        ∃ d, r'.duration = some d ∧ 1 ≤ d ∧ d ≤ 60)
    ∧ (∀ r ∈ df,
        1 ≤ (r.dropOff_datetime - r.pickup_datetime) / 60 →
        (r.dropOff_datetime - r.pickup_datetime) / 60 ≤ 60 →
        encodeRow cat (setDuration r) ∈ (prepare_features df cat t).table)
    ∧ (∀ r ∈ df,
        ((r.dropOff_datetime - r.pickup_datetime) / 60 < 1 ∨
         60 < (r.dropOff_datetime - r.pickup_datetime) / 60) →
        encodeRow cat (setDuration r) ∉ (prepare_features df cat t).table) := by
  refine ⟨setDuration_duration, ?_, ?_, ?_⟩
  · intro r' hr'
    obtain ⟨r, _, hf, rfl⟩ := mem_prep_table.mp hr'
    obtain ⟨d, hd, h1, h2⟩ := durFilter_eq_true.mp hf
    exact ⟨d, by rw [encodeRow_duration]; exact hd, h1, h2⟩
  · intro r hr h1 h2
    refine mem_prep_table.mpr ⟨r, hr, ?_, rfl⟩
    exact durFilter_eq_true.mpr ⟨_, setDuration_duration r, h1, h2⟩
  · intro r hr hout hmem
    obtain ⟨r0, _, hf, heq⟩ := mem_prep_table.mp hmem
    obtain ⟨d, hd, h1, h2⟩ := durFilter_eq_true.mp hf
    have hdur : (encodeRow cat (setDuration r0)).duration =
        (encodeRow cat (setDuration r)).duration := by rw [heq]
    rw [encodeRow_duration, encodeRow_duration, hd, setDuration_duration] at hdur
    have : d = (r.dropOff_datetime - r.pickup_datetime) / 60 :=
      Option.some.inj hdur
    subst this
    rcases hout with h | h
    · exact absurd h1 (not_le.mpr h)
    · exact absurd h2 (not_le.mpr h)

/-- C3 witness: on a concrete two-row table, the 30-minute row is retained
in prepared form and the zero-duration row's prepared form is absent. -/
theorem prepare_features_duration_filter_witness :
    encodeRow categorical (setDuration rowGood) ∈
      (prepare_features [rowGood, rowZero] categorical true).table
    ∧ encodeRow categorical (setDuration rowZero) ∉
      (prepare_features [rowGood, rowZero] categorical true).table := by
  constructor
  · exact (prepare_features_duration_filter [rowGood, rowZero] categorical
      true).2.2.1 rowGood (by decide) (by norm_num [rowGood]) (by norm_num [rowGood])
  · exact (prepare_features_duration_filter [rowGood, rowZero] categorical
      true).2.2.2 rowZero (by decide) (Or.inl (by norm_num [rowZero]))

/-- C6: the outlier filter is idempotent: reapplying the [1, 60]-minute
duration filter to the table returned by `prepare_features` changes
nothing. -/
theorem duration_filter_idempotent (df : List Row) (cat : List ColName)
    (t : Bool) :
    ((prepare_features df cat t).table).filter durFilter =
      (prepare_features df cat t).table := by
  rw [List.filter_eq_self]
  intro r' hr'
  obtain ⟨d, hd, h1, h2⟩ :=
    (prepare_features_duration_filter df cat t).2.1 r' hr'
  exact durFilter_eq_true.mpr ⟨d, hd, h1, h2⟩

/-- C9: the `train` flag of `prepare_features` selects only which log
message is emitted; the returned prepared table and the mutation performed
on the caller's table are identical for `train=True` and `train=False`. -/
theorem prepare_features_flag_independent (df : List Row)
    (cat : List ColName) :
    (prepare_features df cat true).table =
      (prepare_features df cat false).table
    ∧ (prepare_features df cat true).callerDf =
      (prepare_features df cat false).callerDf := ⟨rfl, rfl⟩

/-- C5 counterexample: `prepare_features` does not leave the caller's
table unchanged. On a one-row table loaded without a `duration` column,
the caller's table has gained that column by the time the call returns
(lines 40-41 assign on the input object before the `.copy()` of
line 42). -/
theorem prepare_features_mutates_input :
    (prepare_features [rowNa] categorical true).callerDf ≠ [rowNa] := by
  decide

/-- C5 amended: `prepare_features` mutates the caller's table exactly by
assigning the derived `duration` column on it in place; every other
column of every row is unchanged, and no row is dropped or reordered in
the caller's table. The outlier filtering and the categorical encoding
happen on a copy and are invisible to the caller. -/
theorem prepare_features_caller_mutation (df : List Row)
    (cat : List ColName) (t : Bool) :
    (prepare_features df cat t).callerDf = df.map setDuration
    ∧ (∀ r : Row, setDuration r =
        { r with duration := some ((r.dropOff_datetime - r.pickup_datetime) / 60) }) := by
  refine ⟨rfl, fun r => ?_⟩
  have h := setDuration_duration r
  have hp : (setDuration r).pickup_datetime = r.pickup_datetime := rfl
  have hd : (setDuration r).dropOff_datetime = r.dropOff_datetime := rfl
  have hpu : (setDuration r).PUlocationID = r.PUlocationID := rfl
  have hdo : (setDuration r).DOlocationID = r.DOlocationID := rfl
  cases hs : setDuration r
  rw [hs] at h hp hd hpu hdo
  simp_all

/-- C10: the categorical normalization of line 50 passes every cell
through an integer cast before stringifying: every encoded cell is the
decimal string of an integer, a float cell is encoded as the string of
its value truncated toward zero — so float `7.0` becomes `"7"` and
`7.5` also becomes `"7"`, never a floating-point rendering like
`"7.0"`. -/
theorem categorical_int_cast_before_str :
    (∀ v : CatValue, ∃ n : Int, encodeCat v = .strV (toString n))
    ∧ (∀ q : ℚ, encodeCat (.floatV q) = .strV (toString (truncOfRat q)))
    ∧ encodeCat (.floatV 7) = .strV "7"
    ∧ encodeCat (.floatV (mkRat 15 2)) = .strV "7"
    ∧ encodeCat (.floatV 7) ≠ .strV "7.0" := by
  refine ⟨?_, fun q => rfl, by decide, by decide, by decide⟩
  intro v
  cases v with
  | na => exact ⟨-1, rfl⟩
  | intV n => exact ⟨n, rfl⟩
  | floatV q => exact ⟨truncOfRat q, rfl⟩
  | strV s => exact ⟨(s.toInt?).getD 0, rfl⟩

theorem encodeCat_isStrV (v : CatValue) :
    ∃ n : Int, encodeCat v = .strV (toString n) := by
  cases v with
  | na => exact ⟨-1, rfl⟩
  | intV n => exact ⟨n, rfl⟩
  | floatV q => exact ⟨truncOfRat q, rfl⟩
  | strV s => exact ⟨(s.toInt?).getD 0, rfl⟩

theorem getField_encodeRow {cat : List ColName} {f : ColName} (r : Row)
    (h : f ∈ cat) :
    getField (encodeRow cat r) f = encodeCat (getField r f) := by
  cases f <;> simp [encodeRow, getField, h]

theorem getField_setDuration (r : Row) (f : ColName) :
    getField (setDuration r) f = getField r f := by
  cases f <;> rfl

/-- C4: for every column named in the categorical list, the corresponding
column of the table returned by `prepare_features` is string-typed in
every row, and a cell that was missing in the input is mapped to the
literal string `"-1"` in the row's prepared form. -/
theorem prepare_features_categorical_strings (df : List Row)
    (cat : List ColName) (t : Bool) (f : ColName) (hf : f ∈ cat) :
    (∀ r' ∈ (prepare_features df cat t).table, ∃ s, getField r' f = .strV s)
    ∧ (∀ r ∈ df, getField r f = .na →
        durFilter (setDuration r) = true →
        getField (encodeRow cat (setDuration r)) f = .strV "-1"
        ∧ encodeRow cat (setDuration r) ∈ (prepare_features df cat t).table) := by
  constructor
  · intro r' hr'
    obtain ⟨r, _, _, rfl⟩ := mem_prep_table.mp hr'
    obtain ⟨n, hn⟩ := encodeCat_isStrV (getField (setDuration r) f)
    exact ⟨toString n, by rw [getField_encodeRow _ hf, hn]⟩
  · intro r hr hna hfil
    refine ⟨?_, mem_prep_table.mpr ⟨r, hr, hfil, rfl⟩⟩
    rw [getField_encodeRow _ hf, getField_setDuration, hna]
    decide

/-- C4 witness: on a concrete row whose pickup location is missing, the
prepared row carries the string `"-1"` in that column and sits in the
output table. -/
theorem prepare_features_categorical_strings_witness :
    getField (encodeRow categorical (setDuration rowNa))
      ColName.PUlocationID = .strV "-1"
    ∧ encodeRow categorical (setDuration rowNa) ∈
      (prepare_features [rowNa] categorical true).table :=
  (prepare_features_categorical_strings [rowNa] categorical true
    ColName.PUlocationID (by decide)).2 rowNa (by decide) (by decide)
    (by decide)

theorem run_model_ok_inv {df : List Row} {cat : List ColName}
    {dv : DictVec} {lr : LinReg} {rl : List LogMsg} {o : RunModelOut}
    (h : run_model df cat dv lr = (rl, .ok o)) :
    o = ⟨dv, lr, ()⟩ ∧ ∃ q, rl = [LogMsg.valMse q] := by
  unfold run_model at h
  by_cases he : df.isEmpty <;> simp [he, dvTransform] at h
  obtain ⟨h1, h2⟩ := h
  exact ⟨h2.symm, _, h1.symm⟩

theorem train_model_ok_inv {df : List Row} {cat : List ColName}
    {tl : List LogMsg} {p : LinReg × DictVec}
    (h : train_model df cat = (tl, .ok p)) :
    ∃ q, LogMsg.trainMse q ∈ tl := by
  unfold train_model at h
  by_cases he : df.isEmpty <;> simp [he] at h
  obtain ⟨h1, _⟩ := h
  subst h1
  exact ⟨_, List.mem_cons_of_mem _ (List.mem_cons_of_mem _
    (List.mem_cons_self _ _))⟩

/-- C7: `run_model` never mutates the vectorizer or the model passed to
it: it transforms through the already-fitted vectorizer without
refitting, so the learned feature names after the call are exactly those
before it; and it returns no value (`None`) — the computed validation
error appears only in the log. -/
theorem run_model_preserves_models (df : List Row) (cat : List ColName)
    (dv : DictVec) (lr : LinReg) (logs : List LogMsg) (out : RunModelOut)
    (h : run_model df cat dv lr = (logs, .ok out)) :
    out.dvAfter = dv
    ∧ out.dvAfter.feature_names = dv.feature_names
    ∧ out.lrAfter = lr
    ∧ out.ret = ()
    ∧ ∃ q, logs = [LogMsg.valMse q] := by
  obtain ⟨ho, hq⟩ := run_model_ok_inv h
  subst ho
  exact ⟨rfl, rfl, rfl, rfl, hq⟩

/-- C7 witness: a concrete call of `run_model` on a one-row prepared
table succeeds and hands back exactly the vectorizer and model it was
given. -/
theorem run_model_preserves_models_witness :
    (run_model [encodeRow categorical (setDuration rowGood)] categorical
        dvW lrW).2 = .ok ⟨dvW, lrW, ()⟩
    ∧ (RunModelOut.mk dvW lrW ()).dvAfter = dvW
    ∧ (RunModelOut.mk dvW lrW ()).lrAfter = lrW := by
  have hr : run_model [encodeRow categorical (setDuration rowGood)]
      categorical dvW lrW =
      ((run_model [encodeRow categorical (setDuration rowGood)] categorical
          dvW lrW).1, .ok ⟨dvW, lrW, ()⟩) := rfl
  have h := run_model_preserves_models _ _ _ _ _ _ hr
  exact ⟨congrArg Prod.snd hr, h.1, h.2.2.1⟩

theorem parseDate_bounds {s : String} {dt : PyDate}
    (h : parseDate s = some dt) :
    1 ≤ dt.year ∧ 1 ≤ dt.month ∧ dt.month ≤ 12 := by
  unfold parseDate at h
  split at h
  · split at h
    · rename_i hc
      obtain ⟨_, _, _, _, _, _, _, _, hy, hm, hm12, _⟩ := hc
      cases Option.some.inj h
      exact ⟨hy, hm, hm12⟩
    · exact absurd h (by simp)
  · exact absurd h (by simp)

theorem relMonths_spec (dt : PyDate) (k : Int) (hm1 : 1 ≤ dt.month)
    (hm12 : dt.month ≤ 12) (hk1 : -11 ≤ k) (hk2 : k ≤ 11) :
    12 * (relMonths dt k).1 + (relMonths dt k).2
      = 12 * (dt.year : Int) + (dt.month : Int) + k
    ∧ 1 ≤ (relMonths dt k).2 ∧ (relMonths dt k).2 ≤ 12 := by
  simp only [relMonths]
  split
  · rename_i h
    refine ⟨by omega, by omega, by omega⟩
  · split
    · rename_i h h2
      refine ⟨by omega, by omega, by omega⟩
    · rename_i h h2
      refine ⟨by omega, by omega, by omega⟩

/-- C2 amended: for every well-formed `YYYY-MM-DD` reference date whose
month shifted back by two still lands in a representable year (at least
year 1 — `datetime.MINYEAR`), `get_paths` returns the two identifiers
`./data/fhv_tripdata_<year>-<two-digit-month>.parquet` whose months are
exactly two resp. one calendar month before the reference month, with
correct year rollover. -/
theorem get_paths_month_arithmetic (s : String) (dt : PyDate)
    (hp : parseDate s = some dt) (hy : 1 ≤ (relMonths dt (-2)).1) :
    get_paths s =
      .ok (pathFor (relMonths dt (-2)), pathFor (relMonths dt (-1)))
    ∧ 12 * (relMonths dt (-2)).1 + (relMonths dt (-2)).2
        = 12 * (dt.year : Int) + (dt.month : Int) - 2
    ∧ 12 * (relMonths dt (-1)).1 + (relMonths dt (-1)).2
        = 12 * (dt.year : Int) + (dt.month : Int) - 1
    ∧ 1 ≤ (relMonths dt (-2)).2 ∧ (relMonths dt (-2)).2 ≤ 12
    ∧ 1 ≤ (relMonths dt (-1)).2 ∧ (relMonths dt (-1)).2 ≤ 12 := by
  obtain ⟨hy1, hm1, hm12⟩ := parseDate_bounds hp
  have h2 := relMonths_spec dt (-2) hm1 hm12 (by norm_num) (by norm_num)
  have h1 := relMonths_spec dt (-1) hm1 hm12 (by norm_num) (by norm_num)
  have hv : 1 ≤ (relMonths dt (-1)).1 := by
    obtain ⟨e2, b2, b2'⟩ := h2
    obtain ⟨e1, b1, b1'⟩ := h1
    omega
  unfold get_paths
  rw [hp]
  simp only
  rw [if_neg (by omega), if_neg (by omega)]
  refine ⟨rfl, by omega, by omega, h2.2.1, h2.2.2, h1.2.1, h1.2.2⟩

/-- C2 counterexample: `0001-01-15` is a well-formed `YYYY-MM-DD` date,
yet `get_paths` raises instead of returning a pair of identifiers: two
months before January of year 1 is November of year 0, and
`datetime.date` cannot represent years below 1 (`relativedelta` calls
`date.replace(year=0)`, which raises `ValueError`). -/
theorem get_paths_min_year_failure :
    parseDate "0001-01-15" = some ⟨1, 1, 15⟩
    ∧ get_paths "0001-01-15" = .error .rangeErr := ⟨by decide, rfl⟩

/-- C2 witness: reference `2022-01-15` yields the training identifier for
`2021-11` and the validation identifier for `2021-12`. -/
theorem get_paths_month_arithmetic_witness :
    get_paths "2022-01-15" =
      .ok ("./data/fhv_tripdata_2021-11.parquet",
           "./data/fhv_tripdata_2021-12.parquet") :=
  (get_paths_month_arithmetic "2022-01-15" ⟨2022, 1, 15⟩ (by decide)
    (by decide)).1

/-- C8: for every reference date string that `strptime` rejects (not
well-formed `YYYY-MM-DD`), the run fails with the parsing error raised in
the path-resolving stage, before any data access: no dataset file is
read, no artifact file is written, and no stage completes. -/
theorem malformed_date_aborts_before_data (env : Env)
    (dateOpt : Option String) (today : String)
    (hp : parseDate (dateOpt.getD today) = none) :
    mainFlow env dateOpt today =
      ⟨[], [], [], .error (.pathErr .parseErr)⟩ := by
  have hg : get_paths (dateOpt.getD today) = .error .parseErr := by
    unfold get_paths
    rw [hp]
  simp only [mainFlow, hg]

/-- C8 witness: the malformed date `2022-13-01` aborts the run with a
parsing error, with empty event, log and write lists. -/
theorem malformed_date_aborts_before_data_witness :
    parseDate "2022-13-01" = none
    ∧ mainFlow [] (some "2022-13-01") "2022-03-15" =
        ⟨[], [], [], .error (.pathErr .parseErr)⟩ :=
  ⟨by decide,
   malformed_date_aborts_before_data [] (some "2022-13-01") "2022-03-15"
     (by decide)⟩

/-- C1 amended: the stages of a run execute in the order resolve paths,
load train, prepare train, load validation, prepare validation, train,
persist model artifact, persist vectorizer artifact, evaluate — every
run's completed-stage sequence is a truncation of that list, and a fully
successful run completes all of it, writing both artifact files and
logging both error metrics. Persistence happens before evaluation
(lines 105-108), so a run that fails in the evaluation stage has already
written both artifacts: the absence of a partial-success state claimed by
the spec does not hold (see the counterexample theorem). -/
theorem pipeline_stage_order_and_artifacts (env : Env)
    (dateOpt : Option String) (today : String) :
    ∃ train_path val_path n,
      (mainFlow env dateOpt today).events =
        (stageSeq train_path val_path
          ("model-" ++ dateOpt.getD today ++ ".bin")
          ("dv-" ++ dateOpt.getD today ++ ".b")).take n
      ∧ ((mainFlow env dateOpt today).outcome = .ok () →
          n = 9
          ∧ (mainFlow env dateOpt today).writes.map Prod.fst =
              ["model-" ++ dateOpt.getD today ++ ".bin",
               "dv-" ++ dateOpt.getD today ++ ".b"]
          ∧ (∃ q, LogMsg.trainMse q ∈ (mainFlow env dateOpt today).log)
          ∧ (∃ q, LogMsg.valMse q ∈ (mainFlow env dateOpt today).log)) := by
  cases hg : get_paths (dateOpt.getD today) with
  | error e =>
    refine ⟨"", "", 0, ?_, ?_⟩
    · simp only [mainFlow, hg]
      rfl
    · simp only [mainFlow, hg]
      intro h
      simp at h
  | ok paths =>
    obtain ⟨tp, vp⟩ := paths
    cases hr1 : readData env tp with
    | none =>
      refine ⟨tp, vp, 1, ?_, ?_⟩
      · simp only [mainFlow, hg, hr1]
        rfl
      · simp only [mainFlow, hg, hr1]
        intro h
        simp at h
    | some dfT =>
      cases hr2 : readData env vp with
      | none =>
        refine ⟨tp, vp, 3, ?_, ?_⟩
        · simp only [mainFlow, hg, hr1, hr2]
          rfl
        · simp only [mainFlow, hg, hr1, hr2]
          intro h
          simp at h
      | some dfV =>
        rcases htm : train_model (prepare_features dfT categorical true).table
            categorical with ⟨tlog, tres⟩
        cases tres with
        | error e' =>
          refine ⟨tp, vp, 5, ?_, ?_⟩
          · simp only [mainFlow, hg, hr1, hr2, htm]
            rfl
          · simp only [mainFlow, hg, hr1, hr2, htm]
            intro h
            simp at h
        | ok p =>
          obtain ⟨lr, dv⟩ := p
          rcases hrm : run_model (prepare_features dfV categorical false).table
              categorical dv lr with ⟨rlog, rres⟩
          cases rres with
          | error e' =>
            refine ⟨tp, vp, 8, ?_, ?_⟩
            · simp only [mainFlow, hg, hr1, hr2, htm, hrm]
              rfl
            · simp only [mainFlow, hg, hr1, hr2, htm, hrm]
              intro h
              simp at h
          | ok o =>
            refine ⟨tp, vp, 9, ?_, ?_⟩
            · simp only [mainFlow, hg, hr1, hr2, htm, hrm]
              rfl
            · intro _
              obtain ⟨qt, hqt⟩ := train_model_ok_inv htm
              obtain ⟨_, qv, hqv⟩ := run_model_ok_inv hrm
              refine ⟨rfl, ?_, ⟨qt, ?_⟩, ⟨qv, ?_⟩⟩
              · simp only [mainFlow, hg, hr1, hr2, htm, hrm]
                rfl
              · simp only [mainFlow, hg, hr1, hr2, htm, hrm, List.mem_append]
                exact Or.inl (Or.inr hqt)
              · simp only [mainFlow, hg, hr1, hr2, htm, hrm, List.mem_append,
                  hqv]
                simp

/-- C1 counterexample: a run whose validation month holds only a
zero-duration trip reaches the evaluation stage with an empty prepared
validation table; evaluation raises — and both artifact files have
already been written, contradicting "if the evaluation stage raises, no
artifact file has been written". -/
theorem pipeline_eval_failure_leaves_artifacts :
    (mainFlow envEvalFails (some "2022-03-15") "2022-01-01").outcome =
      .error .evalErr
    ∧ (mainFlow envEvalFails (some "2022-03-15") "2022-01-01").writes.map
        Prod.fst = ["model-2022-03-15.bin", "dv-2022-03-15.b"] :=
  ⟨rfl, by decide⟩

/-- C1 witness: a fully successful concrete run executes all nine stages
in order and writes exactly the two artifact files named by the
reference date. -/
theorem pipeline_stage_order_witness :
    (mainFlow envGood (some "2022-03-15") "2022-01-01").writes.map
      Prod.fst = ["model-2022-03-15.bin", "dv-2022-03-15.b"]
    ∧ (mainFlow envGood (some "2022-03-15") "2022-01-01").events =
        stageSeq "./data/fhv_tripdata_2022-01.parquet"
          "./data/fhv_tripdata_2022-02.parquet"
          "model-2022-03-15.bin" "dv-2022-03-15.b" := by
  obtain ⟨tp, vp, n, hev, himp⟩ :=
    pipeline_stage_order_and_artifacts envGood (some "2022-03-15")
      "2022-01-01"
  obtain ⟨hn, hw, _, _⟩ := himp (by rfl)
  exact ⟨hw, by decide⟩
